import Mathlib

/-!
Verification of the LJSpeechWorld dataset module (`datasets/LJSpeechWorld.py`).

The development shallowly embeds the three components of the module:

* the Corpus Index (`__init__` / `_sort_frames`): manifest parsing, length
  statistics, argsort-based ordering and `min_seq_len` filtering;
* the Example Loader (`load_world`): loading the three companion WORLD
  feature files with the `except RuntimeError` soft-fail policy;
* the Batch Assembler (`collate_fn`): padding, stop-target construction,
  the shape assertion and axis canonicalization.

Numeric array contents are modelled over `ℚ` (the float values that matter
to the stated properties are exactly `0` and `1`, and no floating-point
arithmetic is performed on them).  2-D numpy arrays are modelled as lists
of rows (axis 0 = outer list).  Machine integers do not overflow in any of
the modelled code paths, so token ids are plain `Int` and lengths are `Nat`.

The helper functions `prepare_data`, `prepare_tensor`, `prepare_stop_target`
live in `TTS/utils/data.py`, which is not part of the analysed sources;
they are modelled from the specification (see their doc comments).
-/

/-- Maximum of a list of naturals (the value of `np.max` / Python `max` on a
list of nonnegative lengths; `0` on the empty list, on which numpy raises —
the raising call sites guard for emptiness explicitly). -/
def listMax (l : List Nat) : Nat := l.foldr max 0

/-- Right-pad a 1-D array with copies of `v` up to length `n`
(`np.pad(x, (0, n - len(x)), constant_values=v)`; at every call site in this
development `n ≥ x.length` holds, matching numpy's requirement of a
nonnegative pad width). -/
def padTo {α : Type} (x : List α) (v : α) (n : Nat) : List α :=
  x ++ List.replicate (n - x.length) v

/-- The smallest multiple of `r` that is `≥ n` (for `r > 0`); the
reduction-factor alignment `max_len + (out_steps - remainder) if remainder > 0
else max_len` used by the padding helpers. -/
def roundUpMult (r n : Nat) : Nat :=
  if n % r = 0 then n else n + (r - n % r)

/-- `m.shape[1]` of a 2-D numpy array modelled as a list of rows:
the length of a row (read off the first row). -/
def shape1 (m : List (List ℚ)) : Nat := (m.headD []).length

/-- `t.shape[2]` of a 3-D numpy array (a stacked list of 2-D arrays):
the length of an innermost row, read off the first matrix. -/
def shape2 (t : List (List (List ℚ))) : Nat := shape1 (t.headD [])

/-- `m.transpose` of a 2-D array (the per-matrix effect of
`transpose(0, 2, 1)` on the stacked batch): entry `(j, k)` of the result is
entry `(k, j)` of `m`. -/
def transpose2 (m : List (List ℚ)) : List (List ℚ) :=
  (List.range (shape1 m)).map (fun j => m.map (fun row => row.getD j 0))

deriving instance DecidableEq for Except

/-- Python exceptions that the modelled code can raise. -/
inductive PyExc where
  | indexError
  | typeError (msg : String)
  | assertionError
  | valueError
  | fileNotFound (name : String)
  | runtimeError (msg : String)
deriving DecidableEq

/-- One loaded example (`sample` of `__getitem__`): the arrays are stored
after the transposition applied there, so `sp` and `ap` are freq-major
(axis 0 = frequency bins, axis 1 = time frames) and `f0` is the 1-D pitch
track. -/
structure Sample where
  text : List Int
  f0 : List ℚ
  sp : List (List ℚ)
  ap : List (List ℚ)
  item_idx : String
deriving DecidableEq, Inhabited

/-- An element of the list handed to `collate_fn`: either a mapping (the
sample dictionary) or some other Python value, remembered by its type name. -/
inductive BatchElem where
  | mapping (s : Sample)
  | nonMapping (typeName : String)
deriving DecidableEq

/-- Extraction of one field from every batch element
(`[d['f0'] for d in batch]` and its four siblings): indexing a non-mapping
raises a `TypeError` at the first offending element. -/
def extractList {α : Type} (f : Sample → α) : List BatchElem → Except PyExc (List α)
  | [] => .ok []
  | .mapping s :: rest =>
    match extractList f rest with
    | .ok l => .ok (f s :: l)
    | .error e => .error e
  | .nonMapping t :: _ => .error (.typeError (t ++ " is not subscriptable"))

/-- The tuple returned by `collate_fn` (field names follow the local
variables of the source, including the `text_lenghts` spelling). -/
structure CollatedBatch where
  text : List (List Int)
  text_lenghts : List Nat
  sp : List (List (List ℚ))
  ap : List (List (List ℚ))
  f0 : List (List ℚ)
  spec_lengths : List Nat
  stop_targets : List (List ℚ)
  item_idx0 : String
deriving DecidableEq

/-- Modelled from the spec: `prepare_data` of `TTS/utils/data.py` (not among
the analysed sources), as used for the token sequences.  Spec §4.3 step 2:
pad every token sequence on the right with integer zero up to
`T_text_max = max(token_lengths)` and stack. -/
def prepare_data (inputs : List (List Int)) : List (List Int) :=
  inputs.map (fun x => padTo x 0 (listMax (inputs.map List.length)))

/-- Modelled from the spec: `prepare_data` of `TTS/utils/data.py` (not among
the analysed sources) with the reduction-factor argument, as used for the
1-D pitch tracks.  Spec §3/§4.3 step 6: pad the pitch track along time with
numeric zero up to `T_frame_max'`, the maximum frame count across the batch
plus one (the reserved terminal frame) rounded up to the nearest multiple of
`outputs_per_step`. -/
def prepare_data_steps (inputs : List (List ℚ)) (outSteps : Nat) : List (List ℚ) :=
  inputs.map (fun x =>
    padTo x 0 (roundUpMult outSteps (listMax (inputs.map List.length) + 1)))

/-- Modelled from the spec: `prepare_tensor` of `TTS/utils/data.py` (not
among the analysed sources).  Spec §3/§4.3 step 6: pad each 2-D feature
array along the time axis (axis 1) with numeric zero up to `T_frame_max'`,
the maximum frame count across the batch plus one rounded up to the nearest
multiple of `outputs_per_step`, and stack the results. -/
def prepare_tensor (inputs : List (List (List ℚ))) (outSteps : Nat) :
    List (List (List ℚ)) :=
  inputs.map (fun m =>
    m.map (fun row =>
      padTo row 0 (roundUpMult outSteps (listMax (inputs.map shape1) + 1))))

/-- Modelled from the spec: `prepare_stop_target` of `TTS/utils/data.py`
(not among the analysed sources).  Spec §4.3 step 5: pad every stop-target
vector on the right with value 1.0 up to a common length, the smallest
multiple of `outputs_per_step` that is `≥ max(frame_len) - 1` (the maximum
length of the unpadded vectors), and stack. -/
def prepare_stop_target (inputs : List (List ℚ)) (outSteps : Nat) :
    List (List ℚ) :=
  inputs.map (fun x =>
    padTo x 1 (roundUpMult outSteps (listMax (inputs.map List.length))))

/-- The Batch Assembler `collate_fn`.  `batch[0]` on an empty list raises
`IndexError`; a non-mapping first element reaches the trailing
`raise TypeError`; otherwise the fields are extracted, lengths and stop
targets computed, everything padded, the `sps.shape[2] == aps.shape[2]`
assertion is checked, and the assembled tuple is returned with `sp`/`ap`
transposed to batch-time-frequency order. -/
def collate_fn (r : Nat) (batch : List BatchElem) : Except PyExc CollatedBatch :=
  match batch with
  | [] => .error .indexError
  | .nonMapping t :: _ =>
    .error (.typeError ("batch must contain tensors, numbers, dicts or lists; found " ++ t))
  | .mapping _ :: _ => do
    let f0s ← extractList Sample.f0 batch
    let sps ← extractList Sample.sp batch
    let aps ← extractList Sample.ap batch
    let item_idxs ← extractList Sample.item_idx batch
    let text ← extractList Sample.text batch
    let text_lenghts := text.map List.length
    let _max_text_len := listMax text_lenghts
    let spec_lengths := sps.map (fun m => shape1 m + 1)
    let stop_targets :=
      prepare_stop_target (spec_lengths.map (fun sl => List.replicate (sl - 1) (0 : ℚ))) r
    let textPadded := prepare_data text
    let f0sPadded := prepare_data_steps f0s r
    let spsPadded := prepare_tensor sps r
    let apsPadded := prepare_tensor aps r
    if shape2 spsPadded = shape2 apsPadded then
      .ok ⟨textPadded, text_lenghts, spsPadded.map transpose2, apsPadded.map transpose2,
           f0sPadded, spec_lengths, stop_targets, item_idxs.headD ""⟩
    else
      .error .assertionError

/-- Well-formedness of one example, as produced by loading genuine WORLD
features: the two spectral arrays are nonempty rectangular matrices of the
same shape, and the pitch track covers the same time frames. -/
def WFSample (s : Sample) : Prop :=
  s.sp ≠ [] ∧ s.ap ≠ [] ∧
  (∀ row ∈ s.sp, row.length = shape1 s.sp) ∧
  (∀ row ∈ s.ap, row.length = shape1 s.ap) ∧
  shape1 s.ap = shape1 s.sp ∧
  s.f0.length = shape1 s.sp

instance (s : Sample) : Decidable (WFSample s) := by
  unfold WFSample; infer_instance

/-- The frame length recorded for an example:
`spec_lengths = [m.shape[1] + 1 for m in sps]`. -/
def frameLen (s : Sample) : Nat := shape1 s.sp + 1

/-- Python `line.split('|')` on the character list of a line. -/
def splitPipeAux : List Char → List (List Char)
  | [] => [[]]
  | c :: rest =>
    if c = '|' then [] :: splitPipeAux rest
    else
      match splitPipeAux rest with
      | [] => [[c]]
      | g :: gs => (c :: g) :: gs

/-- Python `line.split('|')`. -/
def splitPipe (s : String) : List String :=
  (splitPipeAux s.toList).map (fun cs => String.mk cs)

/-- `ins[1]` length of a parsed record, totalised with the empty string
(every call site either guards against, or separately models, the
`IndexError` of a record without a second field). -/
def recordTextLen (ins : List String) : Nat := (ins.getD 1 "").length

/-- `lengths = np.array([len(ins[1]) for ins in self.frames])`: the text
length of every record; `ins[1]` on a record with fewer than two fields
raises `IndexError`. -/
def computeLengths : List (List String) → Except PyExc (List Nat)
  | [] => .ok []
  | ins :: rest =>
    match ins.get? 1 with
    | none => .error .indexError
    | some t =>
      match computeLengths rest with
      | .ok l => .ok (t.length :: l)
      | .error e => .error e

/-- The documented contract of `np.argsort(lengths)` (numpy is external to
the analysed sources): the result is a permutation of `0, …, len - 1` along
which the keys are non-decreasing.  The default sort kind (`'quicksort'`)
fixes no further property; in particular numpy documents it as not stable. -/
def ArgsortSpec (keys : List Nat) (idxs : List Nat) : Prop :=
  idxs.Perm (List.range keys.length) ∧
  List.Sorted (· ≤ ·) (idxs.map (fun i => keys.getD i 0))

instance (keys idxs : List Nat) : Decidable (ArgsortSpec keys idxs) := by
  unfold ArgsortSpec; exact instDecidableAnd

/-- `_sort_frames`, parametrised by the index order `idxs` returned by
`np.argsort` (constrained by `ArgsortSpec` in the theorems): compute the
text lengths (possible `IndexError`), print the statistics (`np.max` on an
empty array raises `ValueError`), then keep `frames[idx]` for each `idx` in
argsort order whose length is not `< min_seq_len`. -/
def sort_frames (frames : List (List String)) (minSeqLen : Nat) (idxs : List Nat) :
    Except PyExc (List (List String)) :=
  match computeLengths frames with
  | .error e => .error e
  | .ok lengths =>
    if lengths.isEmpty then .error .valueError
    else
      .ok ((idxs.filter (fun idx => decide (minSeqLen ≤ lengths.getD idx 0))).map
        (fun idx => frames.getD idx []))

/-- `__init__`: split each manifest line on `'|'` and run `_sort_frames`. -/
def datasetInit (lines : List String) (minSeqLen : Nat) (idxs : List Nat) :
    Except PyExc (List (List String)) :=
  sort_frames (lines.map splitPipe) minSeqLen idxs

/-- The text-length keys of a manifest, as `_sort_frames` sees them when no
record is malformed. -/
def manifestKeys (lines : List String) : List Nat :=
  (lines.map splitPipe).map recordTextLen

/-- Result of asking the file system for one file: present with a payload,
absent (`np.load` raises `FileNotFoundError`), or failing with a
`RuntimeError`. -/
inductive LoadResult where
  | found (a : List (List ℚ))
  | missing
  | runtimeFail
deriving DecidableEq

/-- `np.load(name)`: the stored array, or the raised exception (numpy is
external to the analysed sources; a missing file raises
`FileNotFoundError`, which is not a subclass of `RuntimeError`). -/
def np_load (fs : String → LoadResult) (name : String) : Except PyExc (List (List ℚ)) :=
  match fs name with
  | .found a => .ok a
  | .missing => .error (.fileNotFound name)
  | .runtimeFail => .error (.runtimeError name)

/-- `load_world`: try to load the three companion arrays; the
`except RuntimeError` clause logs and lets the function return `None`
(`Except.ok none`); any other exception propagates to the caller
(`Except.error`). -/
def load_world (fs : String → LoadResult) (filename : String) :
    Except PyExc (Option (List (List ℚ) × List (List ℚ) × List (List ℚ))) :=
  match (do
    let f0 ← np_load fs (filename ++ ".f0.npy")
    let sp ← np_load fs (filename ++ ".sp.npy")
    let ap ← np_load fs (filename ++ ".ap.npy")
    pure (f0, sp, ap) : Except PyExc _) with
  | .ok v => .ok (some v)
  | .error (.runtimeError _) => .ok none
  | .error e => .error e

/-- A concrete two-example batch used to instantiate the batch-assembly
theorems on explicit inputs. -/
def wBatch : List Sample :=
  [⟨[1], [9, 9], [[5, 6]], [[5, 6]], "a"⟩,
   ⟨[1, 2], [9, 9, 9, 9, 9], [[1, 2, 3, 4, 5]], [[1, 2, 3, 4, 5]], "b"⟩]

theorem le_roundUpMult (r n : Nat) : n ≤ roundUpMult r n := by
  unfold roundUpMult
  split
  · exact le_rfl
  · exact Nat.le_add_right n _

theorem roundUpMult_mod {r : Nat} (n : Nat) (hr : 0 < r) : roundUpMult r n % r = 0 := by
  unfold roundUpMult
  split
  next h => exact h
  next h =>
    have h2 := Nat.div_add_mod n r
    have h3 : n % r < r := Nat.mod_lt _ hr
    have key : n + (r - n % r) = r * (n / r) + r := by omega
    rw [key, ← Nat.mul_succ]
    exact Nat.mul_mod_right r _

theorem roundUpMult_le {r n m : Nat} (hr : 0 < r) (hm : m % r = 0) (hnm : n ≤ m) :
    roundUpMult r n ≤ m := by
  unfold roundUpMult
  split
  · exact hnm
  next h =>
    obtain ⟨k, hk⟩ := Nat.dvd_of_mod_eq_zero hm
    have hlt : n < m := lt_of_le_of_ne hnm (fun he => h (he ▸ hm))
    have hdiv : n / r + 1 ≤ k := by
      have hd : n / r < k := by
        rw [Nat.div_lt_iff_lt_mul hr, Nat.mul_comm k r, ← hk]
        exact hlt
      omega
    have h2 := Nat.div_add_mod n r
    have h3 : n % r < r := Nat.mod_lt _ hr
    have key : n + (r - n % r) = r * (n / r) + r := by omega
    calc n + (r - n % r) = r * (n / r) + r := key
      _ = r * (n / r + 1) := by rw [Nat.mul_succ]
      _ ≤ r * k := Nat.mul_le_mul_left r hdiv
      _ = m := hk.symm

theorem le_listMax {a : Nat} {l : List Nat} (h : a ∈ l) : a ≤ listMax l := by
  induction l with
  | nil => cases h
  | cons b t ih =>
    rcases List.mem_cons.mp h with h | h
    · subst h; exact Nat.le_max_left _ _
    · exact le_trans (ih h) (Nat.le_max_right _ _)

theorem listMax_map_succ {l : List Nat} (h : l ≠ []) :
    listMax (l.map (fun n => n + 1)) = listMax l + 1 := by
  induction l with
  | nil => exact absurd rfl h
  | cons b t ih =>
    cases t with
    | nil => simp [listMax]
    | cons c u =>
      have ht := ih (by simp)
      simp only [List.map_cons, listMax, List.foldr] at ht ⊢
      rw [ht, Nat.succ_max_succ]

theorem replicate_getD {α : Type} {n j : Nat} {a d : α} (h : j < n) :
    (List.replicate n a).getD j d = a := by
  rw [List.getD_eq_getElem _ _ (by simpa using h)]
  simp

theorem padTo_length {α : Type} (x : List α) (v : α) (n : Nat) :
    (padTo x v n).length = max x.length n := by
  simp [padTo]
  omega

theorem padTo_length_of_le {α : Type} {x : List α} {v : α} {n : Nat}
    (h : x.length ≤ n) : (padTo x v n).length = n := by
  rw [padTo_length]
  omega

theorem padTo_getD_lt {α : Type} {x : List α} {v d : α} {n j : Nat}
    (h : j < x.length) : (padTo x v n).getD j d = x.getD j d :=
  List.getD_append _ _ _ _ h

theorem padTo_getD_pad {α : Type} {x : List α} {v d : α} {n j : Nat}
    (h1 : x.length ≤ j) (h2 : j < n) : (padTo x v n).getD j d = v := by
  unfold padTo
  rw [List.getD_append_right _ _ _ _ h1]
  exact replicate_getD (by omega)

theorem extractList_map {α : Type} (f : Sample → α) (l : List Sample) :
    extractList f (l.map BatchElem.mapping) = .ok (l.map f) := by
  induction l with
  | nil => rfl
  | cons s t ih => simp [extractList, ih]

theorem extractList_map_cons {α : Type} (f : Sample → α) (s : Sample) (l : List Sample) :
    extractList f (BatchElem.mapping s :: l.map BatchElem.mapping) = .ok (f s :: l.map f) := by
  simpa using extractList_map f (s :: l)

theorem transpose2_length (m : List (List ℚ)) : (transpose2 m).length = shape1 m := by
  simp [transpose2]

theorem shape1_padRows {m : List (List ℚ)} {L : Nat} (hm : m ≠ []) (hle : shape1 m ≤ L) :
    shape1 (m.map (fun row => padTo row 0 L)) = L := by
  cases m with
  | nil => exact absurd rfl hm
  | cons r0 rs =>
    simp only [shape1, List.map_cons, List.headD_cons] at hle ⊢
    rw [padTo_length]
    omega

theorem collate_fn_map_eq (r : Nat) (s0 : Sample) (rest : List Sample) :
    collate_fn r ((s0 :: rest).map BatchElem.mapping) =
      if shape2 (prepare_tensor ((s0 :: rest).map Sample.sp) r) =
          shape2 (prepare_tensor ((s0 :: rest).map Sample.ap) r) then
        Except.ok
          ⟨prepare_data ((s0 :: rest).map Sample.text),
           ((s0 :: rest).map Sample.text).map List.length,
           (prepare_tensor ((s0 :: rest).map Sample.sp) r).map transpose2,
           (prepare_tensor ((s0 :: rest).map Sample.ap) r).map transpose2,
           prepare_data_steps ((s0 :: rest).map Sample.f0) r,
           ((s0 :: rest).map Sample.sp).map (fun m => shape1 m + 1),
           prepare_stop_target
             ((((s0 :: rest).map Sample.sp).map (fun m => shape1 m + 1)).map
               (fun sl => List.replicate (sl - 1) (0 : ℚ))) r,
           ((s0 :: rest).map Sample.item_idx).headD ""⟩
      else Except.error PyExc.assertionError := by
  simp only [List.map_cons, collate_fn, extractList_map_cons, Except.bind]
  rfl

theorem shape2_prepare_tensor {m0 : List (List ℚ)} (ms : List (List (List ℚ)))
    (r : Nat) (h0 : m0 ≠ []) :
    shape2 (prepare_tensor (m0 :: ms) r) =
      roundUpMult r (listMax ((m0 :: ms).map shape1) + 1) := by
  have hmem : shape1 m0 ∈ (m0 :: ms).map shape1 := by simp
  have hle : shape1 m0 ≤ roundUpMult r (listMax ((m0 :: ms).map shape1) + 1) := by
    have h1 := le_listMax hmem
    have h2 := le_roundUpMult r (listMax ((m0 :: ms).map shape1) + 1)
    omega
  simp only [prepare_tensor, List.map_cons, shape2, List.headD_cons]
  exact shape1_padRows h0 hle

theorem map_shape1_ap_eq_sp {samples : List Sample} (hwf : ∀ s ∈ samples, WFSample s) :
    (samples.map Sample.ap).map shape1 = (samples.map Sample.sp).map shape1 := by
  rw [List.map_map, List.map_map]
  exact List.map_congr_left (fun s hs => (hwf s hs).2.2.2.2.1)

theorem map_f0_len_eq_sp {samples : List Sample} (hwf : ∀ s ∈ samples, WFSample s) :
    (samples.map Sample.f0).map List.length = (samples.map Sample.sp).map shape1 := by
  rw [List.map_map, List.map_map]
  exact List.map_congr_left (fun s hs => (hwf s hs).2.2.2.2.2)

theorem assert_passes_of (r : Nat) (s0 : Sample) (rest : List Sample)
    (hpre : ∀ s ∈ (s0 :: rest), s.sp ≠ [] ∧ s.ap ≠ [] ∧ shape1 s.ap = shape1 s.sp) :
    shape2 (prepare_tensor ((s0 :: rest).map Sample.sp) r) =
      shape2 (prepare_tensor ((s0 :: rest).map Sample.ap) r) := by
  have h0sp : s0.sp ≠ [] := (hpre s0 (by simp)).1
  have h0ap : s0.ap ≠ [] := (hpre s0 (by simp)).2.1
  have hcongr : ((s0 :: rest).map Sample.ap).map shape1 =
      ((s0 :: rest).map Sample.sp).map shape1 := by
    rw [List.map_map, List.map_map]
    exact List.map_congr_left (fun s hs => (hpre s hs).2.2)
  simp only [List.map_cons]
  rw [shape2_prepare_tensor _ r h0sp, shape2_prepare_tensor _ r h0ap]
  simp only [List.map_cons] at hcongr ⊢
  rw [hcongr]

theorem assert_passes {r : Nat} {s0 : Sample} {rest : List Sample}
    (hwf : ∀ s ∈ (s0 :: rest), WFSample s) :
    shape2 (prepare_tensor ((s0 :: rest).map Sample.sp) r) =
      shape2 (prepare_tensor ((s0 :: rest).map Sample.ap) r) :=
  assert_passes_of r s0 rest
    (fun s hs => ⟨(hwf s hs).1, (hwf s hs).2.1, (hwf s hs).2.2.2.2.1⟩)

theorem getD_map_eq {α β : Type} [Inhabited α] (l : List α) (f : α → β) (d : β)
    (i : Nat) (hi : i < l.length) :
    (l.map f).getD i d = f (l.getD i default) := by
  rw [List.getD_eq_getElem _ _ (by simpa using hi), List.getElem_map,
      List.getD_eq_getElem _ _ hi]

/-- C4: for every non-empty batch of well-formed examples, the
`frame_lengths` (`spec_lengths`) vector returned by `collate_fn` has one
entry per example and records, for every example, the example's
spectral-envelope frame count plus one. -/
theorem collate_fn_frame_lengths (r : Nat) (samples : List Sample)
    (hne : samples ≠ []) (hwf : ∀ s ∈ samples, WFSample s) :
    ∃ b, collate_fn r (samples.map BatchElem.mapping) = Except.ok b ∧
      b.spec_lengths.length = samples.length ∧
      b.spec_lengths = samples.map (fun s => shape1 s.sp + 1) := by
  cases samples with
  | nil => exact absurd rfl hne
  | cons s0 rest =>
    rw [collate_fn_map_eq, if_pos (assert_passes hwf)]
    refine ⟨_, rfl, ?_, ?_⟩
    · simp
    · simp

/-- C6: a batch of examples whose spectral-envelope and aperiodicity stacks
end up with different time-axis lengths after padding makes `collate_fn`
fail with the assertion error and produce no batch; and whenever every
example's spectral envelope and aperiodicity share an identical (nonzero
bins) frame count, the assertion-failure branch is unreachable. -/
theorem collate_fn_assertion (r : Nat) :
    (∀ (s0 : Sample) (rest : List Sample),
      shape2 (prepare_tensor ((s0 :: rest).map Sample.sp) r) ≠
        shape2 (prepare_tensor ((s0 :: rest).map Sample.ap) r) →
      collate_fn r ((s0 :: rest).map BatchElem.mapping) =
        Except.error PyExc.assertionError) ∧
    (∀ (s0 : Sample) (rest : List Sample),
      (∀ s ∈ (s0 :: rest), s.sp ≠ [] ∧ s.ap ≠ [] ∧ shape1 s.ap = shape1 s.sp) →
      collate_fn r ((s0 :: rest).map BatchElem.mapping) ≠
        Except.error PyExc.assertionError) := by
  constructor
  · intro s0 rest hmis
    rw [collate_fn_map_eq, if_neg hmis]
  · intro s0 rest hpre
    rw [collate_fn_map_eq, if_pos (assert_passes_of r s0 rest hpre)]
    exact fun h => Except.noConfusion h

/-- C2: for every non-empty batch of well-formed examples, the assembled
`spectral_envelope`, `aperiodicity` and `pitch` tensors returned by
`collate_fn` share one common time-axis length (`shape[1]`), and that length
is an exact multiple of `outputs_per_step`. -/
theorem collate_fn_feature_time_axis (r : Nat) (samples : List Sample)
    (hr : 0 < r) (hne : samples ≠ []) (hwf : ∀ s ∈ samples, WFSample s) :
    ∃ b, collate_fn r (samples.map BatchElem.mapping) = Except.ok b ∧
      ∃ T, T % r = 0 ∧
        (∀ m ∈ b.sp, m.length = T) ∧
        (∀ m ∈ b.ap, m.length = T) ∧
        (∀ x ∈ b.f0, x.length = T) := by
  cases samples with
  | nil => exact absurd rfl hne
  | cons s0 rest =>
    rw [collate_fn_map_eq, if_pos (assert_passes hwf)]
    have hck : listMax (((s0 :: rest).map Sample.ap).map shape1) =
        listMax (((s0 :: rest).map Sample.sp).map shape1) := by
      rw [map_shape1_ap_eq_sp hwf]
    have hfk : listMax (((s0 :: rest).map Sample.f0).map List.length) =
        listMax (((s0 :: rest).map Sample.sp).map shape1) := by
      rw [map_f0_len_eq_sp hwf]
    refine ⟨_, rfl,
      roundUpMult r (listMax (((s0 :: rest).map Sample.sp).map shape1) + 1),
      roundUpMult_mod _ hr, ?_, ?_, ?_⟩
    · intro m hm
      obtain ⟨mp, hmp, rfl⟩ := List.mem_map.mp hm
      rw [transpose2_length]
      simp only [prepare_tensor] at hmp
      obtain ⟨mi, hmi, rfl⟩ := List.mem_map.mp hmp
      obtain ⟨s, hs, rfl⟩ := List.mem_map.mp hmi
      refine shape1_padRows (hwf s hs).1 ?_
      have h1 : shape1 s.sp ∈ ((s0 :: rest).map Sample.sp).map shape1 := by
        simp only [List.map_map]
        exact List.mem_map.mpr ⟨s, hs, rfl⟩
      have h2 := le_listMax h1
      have h3 := le_roundUpMult r (listMax (((s0 :: rest).map Sample.sp).map shape1) + 1)
      omega
    · intro m hm
      obtain ⟨mp, hmp, rfl⟩ := List.mem_map.mp hm
      rw [transpose2_length]
      simp only [prepare_tensor] at hmp
      obtain ⟨mi, hmi, rfl⟩ := List.mem_map.mp hmp
      obtain ⟨s, hs, rfl⟩ := List.mem_map.mp hmi
      rw [← hck]
      refine shape1_padRows (hwf s hs).2.1 ?_
      have h1 : shape1 s.ap ∈ ((s0 :: rest).map Sample.ap).map shape1 := by
        simp only [List.map_map]
        exact List.mem_map.mpr ⟨s, hs, rfl⟩
      have h2 := le_listMax h1
      have h3 := le_roundUpMult r (listMax (((s0 :: rest).map Sample.ap).map shape1) + 1)
      omega
    · intro x hx
      simp only [prepare_data_steps] at hx
      obtain ⟨xi, hxi, rfl⟩ := List.mem_map.mp hx
      rw [← hfk]
      refine padTo_length_of_le ?_
      have h1 : xi.length ∈ ((s0 :: rest).map Sample.f0).map List.length :=
        List.mem_map.mpr ⟨xi, hxi, rfl⟩
      have h2 := le_listMax h1
      have h3 := le_roundUpMult r (listMax (((s0 :: rest).map Sample.f0).map List.length) + 1)
      omega

/-- C3: for every non-empty batch of well-formed examples, `collate_fn`
returns `token_lengths` and `frame_lengths` vectors of length equal to the
batch size; `token_lengths[i]` is the original (unpadded) token-sequence
length of example `i`; every `token_lengths[i]` is at most the padded text
width `T_text_max = max(token_lengths)`; and in the padded tokens matrix
every entry of row `i` at a column index `≥ token_lengths[i]` is the integer
padding value `0`. -/
theorem collate_fn_token_fields (r : Nat) (samples : List Sample)
    (hne : samples ≠ []) (hwf : ∀ s ∈ samples, WFSample s) :
    ∃ b, collate_fn r (samples.map BatchElem.mapping) = Except.ok b ∧
      b.text_lenghts.length = samples.length ∧
      b.spec_lengths.length = samples.length ∧
      b.text_lenghts = samples.map (fun s => s.text.length) ∧
      (∀ n ∈ b.text_lenghts, n ≤ listMax (samples.map (fun s => s.text.length))) ∧
      (∀ i, i < samples.length → ∀ j,
        (samples.getD i default).text.length ≤ j →
        j < (b.text.getD i []).length →
        (b.text.getD i []).getD j 1 = 0) := by
  cases samples with
  | nil => exact absurd rfl hne
  | cons s0 rest =>
    rw [collate_fn_map_eq, if_pos (assert_passes hwf)]
    refine ⟨_, rfl, ?_, ?_, ?_, ?_, ?_⟩
    · simp
    · simp
    · simp [List.map_map, Function.comp]
    · intro n hn
      simp only [List.map_map] at hn
      obtain ⟨s, hs, rfl⟩ := List.mem_map.mp hn
      exact le_listMax (List.mem_map.mpr ⟨s, hs, rfl⟩)
    · intro i hi j hj1 hj2
      simp only [prepare_data] at hj2 ⊢
      rw [getD_map_eq _ _ _ _ (by simpa using hi),
          getD_map_eq _ _ _ _ hi] at hj2 ⊢
      have hsmem : (s0 :: rest).getD i default ∈ (s0 :: rest) := by
        rw [List.getD_eq_getElem _ _ hi]
        exact List.getElem_mem _
      have hmem : ((s0 :: rest).getD i default).text.length ∈
          (((s0 :: rest).map Sample.text).map List.length) := by
        simp only [List.map_map]
        exact List.mem_map.mpr ⟨_, hsmem, rfl⟩
      have hT := le_listMax hmem
      rw [padTo_length] at hj2
      exact padTo_getD_pad hj1 (by omega)

theorem collate_fn_stop_targets (r : Nat) (samples : List Sample)
    (hr : 0 < r) (hne : samples ≠ []) (hwf : ∀ s ∈ samples, WFSample s) :
    ∃ b, collate_fn r (samples.map BatchElem.mapping) = Except.ok b ∧
      b.stop_targets.length = samples.length ∧
      ∀ i, i < samples.length →
        ((b.stop_targets.getD i []).length % r = 0 ∧
          listMax (samples.map frameLen) - 1 ≤ (b.stop_targets.getD i []).length ∧
          (∀ m, m % r = 0 → listMax (samples.map frameLen) - 1 ≤ m →
            (b.stop_targets.getD i []).length ≤ m) ∧
          (∀ j, j < frameLen (samples.getD i default) - 1 →
            (b.stop_targets.getD i []).getD j 0 = 0) ∧
          (∀ j, frameLen (samples.getD i default) - 1 ≤ j →
            j < (b.stop_targets.getD i []).length →
            (b.stop_targets.getD i []).getD j 0 = 1)) := by
  cases samples with
  | nil => exact absurd rfl hne
  | cons s0 rest =>
    rw [collate_fn_map_eq, if_pos (assert_passes hwf)]
    have hstops : ((((s0 :: rest).map Sample.sp).map (fun m => shape1 m + 1)).map
        (fun sl => List.replicate (sl - 1) (0 : ℚ))).map List.length =
        (s0 :: rest).map (fun s => shape1 s.sp) := by
      simp [List.map_map, Function.comp]
    have hfl : listMax ((s0 :: rest).map frameLen) - 1 =
        listMax ((s0 :: rest).map (fun s => shape1 s.sp)) := by
      have h1 : (s0 :: rest).map frameLen =
          ((s0 :: rest).map (fun s => shape1 s.sp)).map (fun n => n + 1) := by
        simp [List.map_map, Function.comp, frameLen]
      rw [h1, listMax_map_succ (by simp)]
      omega
    refine ⟨_, rfl, by simp [prepare_stop_target], ?_⟩
    intro i hi
    simp only [prepare_stop_target, hstops, hfl]
    rw [getD_map_eq _ _ _ _ (by simpa using hi),
        getD_map_eq _ _ _ _ (by simpa using hi),
        getD_map_eq _ _ _ _ (by simpa using hi),
        getD_map_eq _ _ _ _ hi]
    simp only [frameLen, Nat.add_sub_cancel]
    have hsmem : (s0 :: rest).getD i default ∈ (s0 :: rest) := by
      rw [List.getD_eq_getElem _ _ hi]
      exact List.getElem_mem _
    have hkK : shape1 ((s0 :: rest).getD i default).sp ≤
        listMax ((s0 :: rest).map (fun s => shape1 s.sp)) :=
      le_listMax (List.mem_map.mpr ⟨_, hsmem, rfl⟩)
    have hKL := le_roundUpMult r (listMax ((s0 :: rest).map (fun s => shape1 s.sp)))
    have hlen : (padTo (List.replicate (shape1 ((s0 :: rest).getD i default).sp) (0 : ℚ)) 1
        (roundUpMult r (listMax ((s0 :: rest).map (fun s => shape1 s.sp))))).length =
        roundUpMult r (listMax ((s0 :: rest).map (fun s => shape1 s.sp))) := by
      refine padTo_length_of_le ?_
      simp only [List.length_replicate]
      omega
    refine ⟨?_, ?_, ?_, ?_, ?_⟩
    · rw [hlen]
      exact roundUpMult_mod _ hr
    · rw [hlen]
      exact hKL
    · intro m hm hKm
      rw [hlen]
      exact roundUpMult_le hr hm hKm
    · intro j hj
      rw [padTo_getD_lt (by simpa using hj)]
      exact replicate_getD hj
    · intro j hj1 hj2
      rw [hlen] at hj2
      exact padTo_getD_pad (by simpa using hj1) hj2

theorem extractList_error {α : Type} (f : Sample → α) (l : List BatchElem)
    (h : ∃ e ∈ l, ∃ t, e = BatchElem.nonMapping t) :
    ∃ m, extractList f l = Except.error (PyExc.typeError m) := by
  induction l with
  | nil => simp at h
  | cons e0 rest ih =>
    cases e0 with
    | nonMapping t => exact ⟨t ++ " is not subscriptable", rfl⟩
    | mapping s =>
      have hrest : ∃ e ∈ rest, ∃ t, e = BatchElem.nonMapping t := by
        obtain ⟨e, he, t, rfl⟩ := h
        rcases List.mem_cons.mp he with he0 | he1
        · exact absurd he0 (by simp)
        · exact ⟨_, he1, t, rfl⟩
      obtain ⟨m, hm⟩ := ih hrest
      exact ⟨m, by simp [extractList, hm]⟩

/-- C9: every non-empty batch input containing a malformed (non-mapping)
element makes `collate_fn` fail with a descriptive `TypeError` — raised in
the type-check/field-extraction stage, before any padding is computed — and
emit no batch. -/
theorem collate_fn_malformed (r : Nat) (batch : List BatchElem)
    (hne : batch ≠ [])
    (hmal : ∃ e ∈ batch, ∃ t, e = BatchElem.nonMapping t) :
    ∃ m, collate_fn r batch = Except.error (PyExc.typeError m) := by
  cases batch with
  | nil => exact absurd rfl hne
  | cons e0 rest =>
    cases e0 with
    | nonMapping t =>
      exact ⟨_, rfl⟩
    | mapping s =>
      obtain ⟨m, hm⟩ := extractList_error Sample.f0 (BatchElem.mapping s :: rest) hmal
      refine ⟨m, ?_⟩
      simp only [collate_fn, hm]
      rfl

theorem computeLengths_ok : ∀ {frames : List (List String)} {lengths : List Nat},
    computeLengths frames = Except.ok lengths → lengths = frames.map recordTextLen := by
  intro frames
  induction frames with
  | nil =>
    intro lengths h
    injection h with h1
    simp [← h1]
  | cons ins rest ih =>
    intro lengths h
    simp only [computeLengths] at h
    split at h
    · exact Except.noConfusion h
    next t hg =>
      split at h
      next l hr =>
        injection h with h1
        have hrec : recordTextLen ins = t.length := by
          unfold recordTextLen
          rw [List.getD_eq_getD_get?, hg]
          rfl
        rw [← h1, List.map_cons, hrec, ← ih hr]
      next e hr => exact Except.noConfusion h

/-- C10: constructing the Corpus Index from an empty manifest (zero lines)
fails with the `ValueError` that `np.max` raises on a zero-size array during
the length-statistics computation, rather than producing an empty index. -/
theorem datasetInit_empty_fails (minSeqLen : Nat) (idxs : List Nat) :
    datasetInit [] minSeqLen idxs = Except.error PyExc.valueError := rfl

/-- C7: for every manifest and every `min_seq_len`, whenever construction
succeeds (with `np.argsort` returning any index order satisfying its
documented contract), the retained records are in non-decreasing order of
raw-text character length and no retained record has raw-text length
strictly below `min_seq_len`. -/
theorem datasetInit_sorted_filtered (lines : List String) (minSeqLen : Nat)
    (idxs : List Nat) (out : List (List String))
    (hargs : ArgsortSpec (manifestKeys lines) idxs)
    (hok : datasetInit lines minSeqLen idxs = Except.ok out) :
    List.Sorted (· ≤ ·) (out.map recordTextLen) ∧
    ∀ rec ∈ out, minSeqLen ≤ recordTextLen rec := by
  unfold datasetInit sort_frames at hok
  split at hok
  · exact Except.noConfusion hok
  next lengths hcl =>
    split at hok
    · exact Except.noConfusion hok
    next hne =>
      injection hok with h1
      have hlen : lengths = (lines.map splitPipe).map recordTextLen := computeLengths_ok hcl
      have hpt : ∀ idx : Nat, lengths.getD idx 0 =
          recordTextLen ((lines.map splitPipe).getD idx []) := by
        intro idx
        rw [hlen]
        exact List.getD_map (lines.map splitPipe) [] recordTextLen
      have hkeys : manifestKeys lines = lengths := by
        rw [hlen]; rfl
      constructor
      · have hmapeq : out.map recordTextLen =
            (idxs.filter (fun idx => decide (minSeqLen ≤ lengths.getD idx 0))).map
              (fun i => (manifestKeys lines).getD i 0) := by
          rw [← h1, List.map_map]
          refine List.map_congr_left ?_
          intro idx _
          show recordTextLen ((lines.map splitPipe).getD idx []) =
            (manifestKeys lines).getD idx 0
          rw [hkeys, hpt idx]
        rw [hmapeq]
        exact hargs.2.sublist ((List.filter_sublist idxs).map _)
      · intro rec hrec
        rw [← h1] at hrec
        obtain ⟨idx, hidx, rfl⟩ := List.mem_map.mp hrec
        have hmem := List.mem_filter.mp hidx
        have hp := of_decide_eq_true hmem.2
        rw [← hpt idx]
        exact hp

/-- C5: the claimed soft-fail policy of the Example Loader does not hold on
the code for a missing companion file: `np.load` raises `FileNotFoundError`,
which the `except RuntimeError` clause does not catch, so `load_world`
propagates the exception to its caller instead of logging and returning an
empty result; the logged soft return happens only for a `RuntimeError`. -/
theorem load_world_missing_file_propagates :
    load_world (fun _ => LoadResult.missing) "LJ001-0001" =
      Except.error (PyExc.fileNotFound "LJ001-0001.f0.npy") ∧
    load_world (fun _ => LoadResult.runtimeFail) "LJ001-0001" = Except.ok none := by
  exact ⟨rfl, rfl⟩

/-- Witness for C1: the stop-target theorem instantiated on `wBatch` with
`outputs_per_step = 2`. -/
theorem collate_fn_stop_targets_witness :
    (0 : Nat) < 2 ∧ wBatch ≠ [] ∧ (∀ s ∈ wBatch, WFSample s) ∧
    (∃ b, collate_fn 2 (wBatch.map BatchElem.mapping) = Except.ok b ∧
      b.stop_targets.length = wBatch.length ∧
      ∀ i, i < wBatch.length →
        ((b.stop_targets.getD i []).length % 2 = 0 ∧
          listMax (wBatch.map frameLen) - 1 ≤ (b.stop_targets.getD i []).length ∧
          (∀ m, m % 2 = 0 → listMax (wBatch.map frameLen) - 1 ≤ m →
            (b.stop_targets.getD i []).length ≤ m) ∧
          (∀ j, j < frameLen (wBatch.getD i default) - 1 →
            (b.stop_targets.getD i []).getD j 0 = 0) ∧
          (∀ j, frameLen (wBatch.getD i default) - 1 ≤ j →
            j < (b.stop_targets.getD i []).length →
            (b.stop_targets.getD i []).getD j 0 = 1))) :=
  ⟨by decide, by decide, by decide,
   collate_fn_stop_targets 2 wBatch (by decide) (by decide) (by decide)⟩

/-- Witness for C2: the feature-time-axis theorem instantiated on `wBatch`
with `outputs_per_step = 2`. -/
theorem collate_fn_feature_time_axis_witness :
    (0 : Nat) < 2 ∧ wBatch ≠ [] ∧ (∀ s ∈ wBatch, WFSample s) ∧
    (∃ b, collate_fn 2 (wBatch.map BatchElem.mapping) = Except.ok b ∧
      ∃ T, T % 2 = 0 ∧
        (∀ m ∈ b.sp, m.length = T) ∧
        (∀ m ∈ b.ap, m.length = T) ∧
        (∀ x ∈ b.f0, x.length = T)) :=
  ⟨by decide, by decide, by decide,
   collate_fn_feature_time_axis 2 wBatch (by decide) (by decide) (by decide)⟩

/-- Witness for C3: the token-fields theorem instantiated on `wBatch` with
`outputs_per_step = 2`. -/
theorem collate_fn_token_fields_witness :
    wBatch ≠ [] ∧ (∀ s ∈ wBatch, WFSample s) ∧
    (∃ b, collate_fn 2 (wBatch.map BatchElem.mapping) = Except.ok b ∧
      b.text_lenghts.length = wBatch.length ∧
      b.spec_lengths.length = wBatch.length ∧
      b.text_lenghts = wBatch.map (fun s => s.text.length) ∧
      (∀ n ∈ b.text_lenghts, n ≤ listMax (wBatch.map (fun s => s.text.length))) ∧
      (∀ i, i < wBatch.length → ∀ j,
        (wBatch.getD i default).text.length ≤ j →
        j < (b.text.getD i []).length →
        (b.text.getD i []).getD j 1 = 0)) :=
  ⟨by decide, by decide,
   collate_fn_token_fields 2 wBatch (by decide) (by decide)⟩

/-- Witness for C4: the frame-lengths theorem instantiated on `wBatch` with
`outputs_per_step = 2`. -/
theorem collate_fn_frame_lengths_witness :
    wBatch ≠ [] ∧ (∀ s ∈ wBatch, WFSample s) ∧
    (∃ b, collate_fn 2 (wBatch.map BatchElem.mapping) = Except.ok b ∧
      b.spec_lengths.length = wBatch.length ∧
      b.spec_lengths = wBatch.map (fun s => shape1 s.sp + 1)) :=
  ⟨by decide, by decide,
   collate_fn_frame_lengths 2 wBatch (by decide) (by decide)⟩

/-- Witness for C6: both branches of the assertion theorem on concrete
one-example batches — a spectral-envelope/aperiodicity frame-count mismatch
triggers the assertion error, and matching frame counts avoid it. -/
theorem collate_fn_assertion_witness :
    (shape2 (prepare_tensor ([(⟨[1], [9], [[5]], [[5, 6, 7]], "a"⟩ : Sample)].map Sample.sp) 1) ≠
      shape2 (prepare_tensor ([(⟨[1], [9], [[5]], [[5, 6, 7]], "a"⟩ : Sample)].map Sample.ap) 1)) ∧
    collate_fn 1 ([(⟨[1], [9], [[5]], [[5, 6, 7]], "a"⟩ : Sample)].map BatchElem.mapping) =
      Except.error PyExc.assertionError ∧
    collate_fn 1 ([(⟨[1], [9], [[5]], [[5]], "a"⟩ : Sample)].map BatchElem.mapping) ≠
      Except.error PyExc.assertionError :=
  ⟨by decide,
   (collate_fn_assertion 1).1 ⟨[1], [9], [[5]], [[5, 6, 7]], "a"⟩ [] (by decide),
   (collate_fn_assertion 1).2 ⟨[1], [9], [[5]], [[5]], "a"⟩ [] (by decide)⟩

/-- Witness for C9: a batch whose second element is not a mapping is
rejected with a `TypeError`. -/
theorem collate_fn_malformed_witness :
    ([BatchElem.mapping ⟨[1], [9], [[5]], [[5]], "a"⟩, BatchElem.nonMapping "int"] ≠
      ([] : List BatchElem)) ∧
    (∃ e ∈ [BatchElem.mapping ⟨[1], [9], [[5]], [[5]], "a"⟩, BatchElem.nonMapping "int"],
      ∃ t, e = BatchElem.nonMapping t) ∧
    (∃ m, collate_fn 1 [BatchElem.mapping ⟨[1], [9], [[5]], [[5]], "a"⟩,
      BatchElem.nonMapping "int"] = Except.error (PyExc.typeError m)) :=
  ⟨by decide, ⟨BatchElem.nonMapping "int", by decide, "int", rfl⟩,
   collate_fn_malformed 1 _ (by decide) ⟨BatchElem.nonMapping "int", by decide, "int", rfl⟩⟩

/-- Witness for C7: the sort-and-filter theorem on a concrete two-line
manifest with an argsort order checked against the argsort contract. -/
theorem datasetInit_sorted_filtered_witness :
    ArgsortSpec (manifestKeys ["id1|abc", "id2|x"]) [1, 0] ∧
    datasetInit ["id1|abc", "id2|x"] 2 [1, 0] = Except.ok [["id1", "abc"]] ∧
    (List.Sorted (· ≤ ·) ([["id1", "abc"]].map recordTextLen) ∧
      ∀ rec ∈ [["id1", "abc"]], 2 ≤ recordTextLen rec) :=
  ⟨by decide, by decide,
   datasetInit_sorted_filtered ["id1|abc", "id2|x"] 2 [1, 0] [["id1", "abc"]]
     (by decide) (by decide)⟩
